import Mathlib

/-!
Verification of the `imbalanced-algorithms` repository (`smote.py`).

The file shallowly embeds the three classes of `smote.py` — `SMOTE`,
`BorderlineSMOTE` and `SMOTEBoost` — over exact rational arithmetic.
A sample row is a `List ℚ`; a dataset is a list of rows.

External collaborators (scikit-learn's `NearestNeighbors`, the NumPy
pseudo-random generator and Python's standard-library `random.choice`)
are not part of the repository; they are modelled as follows:

* the neighbor index is modelled from the spec's NeighborIndex contract:
  a query for row `j` returns the `k` nearest rows by (squared Euclidean)
  distance excluding row `j` itself, and building the index over fewer
  than `k+1` rows fails (surfaced here as the `Except.error` branch of
  `fit`);
* the NumPy generator, reseeded by `np.random.seed(self.random_state)`
  at the start of every `sample` call, is modelled as a pair of draw
  streams (`NpDraws`): the seeding makes the stream a function of the
  configured seed only, so the same `NpDraws` value is presented to
  every call on a given instance;
* Python's `random.choice`, drawn from the standard library's *global*
  generator — which `np.random.seed` does *not* reseed — is modelled as
  a stream `py : Nat → Nat` of raw draws that is threaded across calls:
  a call consuming `n` draws returns the advanced stream
  `fun t => py (t + n)`.
-/

namespace ImbAlg

/-- One sample: a feature vector with rational entries. -/
abbrev Point := List ℚ

/-- `S[i, :] = self.X[j, :] + gap * dif[:]` with `dif = self.X[nn_index] - self.X[j]`:
pointwise `a + gap * (b - a)`. -/
def interpolate (xj xm : Point) (gap : ℚ) : Point :=
  List.zipWith (fun a b => a + gap * (b - a)) xj xm

/-- Squared Euclidean distance between two rows. -/
def sqDist (p q : Point) : ℚ :=
  (List.zipWith (fun a b => (a - b) * (a - b)) p q).sum

/-- Insert an index into a list kept sorted by the key `d` (the inserted
index goes before entries with an equal key, which keeps the original
order on ties). -/
def insertByDist (d : Nat → ℚ) (i : Nat) : List Nat → List Nat
  | [] => [i]
  | j :: js => if d i ≤ d j then i :: j :: js else j :: insertByDist d i js

/-- Insertion sort of indices by the key `d`. -/
def sortByDist (d : Nat → ℚ) : List Nat → List Nat
  | [] => []
  | i :: is => insertByDist d i (sortByDist d is)

/-- Modelled from the spec: the external NeighborIndex collaborator
(scikit-learn's `NearestNeighbors`, not part of this repository).  The code
builds a `k+1`-neighbor index and drops the first returned column
(`kneighbors(...)[:, 1:]`, the query row itself); per the spec's contract the
query returns the `k` nearest rows of `X`, excluding the query row `j`
itself, ordered by distance. -/
def kNearest (X : List Point) (k j : Nat) : List Nat :=
  (sortByDist (fun i => sqDist (X.getD i []) (X.getD j []))
    ((List.range X.length).filter (fun i => i != j))).take k

/-- The state of a fitted `SMOTE` instance: constructor arguments plus the
attributes set by `fit`. -/
structure SMOTEState where
  k : Nat
  returnMode : String
  randomState : Option Nat
  X : List Point
  minorityTarget : Int
  nMinoritySamples : Nat
  nFeatures : Nat
deriving DecidableEq

/-- Error message for the (spec-modelled) failure of the neighbor-index
build when the point set has fewer than `k+1` rows. -/
def insufficientDataMsg : String :=
  "insufficient data: fewer rows than k_neighbors + 1"

/-- `SMOTE.fit`: stores the point set, the minority target and the shape,
and builds the `k+1`-neighbor index over `X`.  Modelled from the spec: the
build fails (insufficient-data error) when `X` has fewer than `k+1` rows. -/
def SMOTE.fit (k : Nat) (returnMode : String) (randomState : Option Nat)
    (X : List Point) (minorityTarget : Int) : Except String SMOTEState :=
  if X.length < k + 1 then .error insufficientDataMsg
  else .ok { k := k, returnMode := returnMode, randomState := randomState,
             X := X, minorityTarget := minorityTarget,
             nMinoritySamples := X.length,
             nFeatures := (X.headD []).length }

/-- The stream of draws produced by the NumPy generator right after
`np.random.seed(self.random_state)`: `randint i` is the i-th iteration's raw
`np.random.randint` draw (taken modulo the exclusive bound), `random i` the
i-th iteration's `np.random.random()` draw (a scalar in `[0,1)`). -/
structure NpDraws where
  randint : Nat → Nat
  random : Nat → ℚ

/-- The i-th synthetic row of `SMOTE.sample`: draw `j`, query the `k`
nearest neighbors of row `j` excluding `j`, pick one with `random.choice`
(the stdlib stream `py`), and interpolate with `gap = np.random.random()`. -/
def synthRow (st : SMOTEState) (np : NpDraws) (py : Nat → Nat) (i : Nat) : Point :=
  let j := np.randint i % st.X.length
  let nn := kNearest st.X st.k j
  let m := nn.getD (py i % nn.length) 0
  interpolate (st.X.getD j []) (st.X.getD m []) (np.random i)

/-- The synthetic matrix `S` built by the loop of `SMOTE.sample`. -/
def SMOTE.sampleS (st : SMOTEState) (nSamples : Nat) (np : NpDraws)
    (py : Nat → Nat) : List Point :=
  (List.range nSamples).map (synthRow st np py)

/-- What a `sample` call returns: the Python method returns the synthetic
matrix, a pair, a triple (Borderline only) or `None` (the `else: pass`
branch). -/
inductive SampleResult where
  | only (S : List Point)
  | append (X : List Point) (y : List Int)
  | withSafeAndDanger (S safe danger : List Point)
  | nothing
deriving DecidableEq

/-- `SMOTE.sample`: reseeds the NumPy generator (hence receives the
seed-determined `np` streams), consumes `nSamples` stdlib-`choice` draws
from `py`, and dispatches on `return_mode`.  The method writes no instance
attribute, so the state component of the result is the input state. -/
def SMOTE.sample (st : SMOTEState) (nSamples : Nat) (np : NpDraws)
    (py : Nat → Nat) : SampleResult × (Nat → Nat) × SMOTEState :=
  let S := SMOTE.sampleS st nSamples np py
  let res :=
    if st.returnMode = "append" then
      let X := st.X ++ S
      SampleResult.append X (List.replicate X.length st.minorityTarget)
    else if st.returnMode = "only" then SampleResult.only S
    else SampleResult.nothing
  (res, fun t => py (t + nSamples), st)

/-- The labels that appear in `y`, in order of first occurrence — the
iteration order of a Python `Counter` built from `y`. -/
def firstOccurrences (y : List Int) : List Int :=
  y.foldl (fun acc a => if a ∈ acc then acc else acc ++ [a]) []

/-- `min(stats_c_, key=stats_c_.get)`: the first label (in `Counter`
iteration order) with the fewest occurrences; Python's `min` keeps the
earlier item on ties.  (Python raises on an empty sequence; the `fit`
below never reaches this case with an empty `y`.) -/
def counterMin (y : List Int) : Int :=
  match firstOccurrences y with
  | [] => 0
  | c :: cs => cs.foldl (fun best a => if y.count a < y.count best then a else best) c

/-- The state of a fitted `BorderlineSMOTE` instance. -/
structure BLState where
  k : Nat
  returnMode : String
  randomState : Option Nat
  X : List Point
  y : List Int
  sampleCount : Nat
  minorityTarget : Int
deriving DecidableEq

/-- `BorderlineSMOTE.fit`: stores the dataset, derives the minority target
as the least-frequent label, and builds the `k+1`-neighbor index over the
whole dataset.  Modelled from the spec: the build fails when `X` has fewer
than `k+1` rows. -/
def BorderlineSMOTE.fit (k : Nat) (returnMode : String)
    (randomState : Option Nat) (X : List Point) (y : List Int) :
    Except String BLState :=
  if X.length < k + 1 then .error insufficientDataMsg
  else .ok { k := k, returnMode := returnMode, randomState := randomState,
             X := X, y := y, sampleCount := X.length,
             minorityTarget := counterMin y }

/-- The `majority_neighbors` count of row `i`: how many of its neighbors
(excluding itself) are not labeled with the minority target. -/
def majorityNeighbors (st : BLState) (i : Nat) : Nat :=
  ((kNearest st.X st.k i).filter
    (fun nIdx => st.y.getD nIdx 0 != st.minorityTarget)).length

/-- The three-way classification of Borderline-SMOTE. -/
inductive BLClass where
  | noise
  | safe
  | danger
deriving DecidableEq

/-- The classification performed for row `i` by the loop of
`BorderlineSMOTE.sample`: non-minority rows are skipped (`none`); a
minority row is noise when all of its neighbors are majority, safe when
fewer than `len(nn)/2` are (Python float division), danger otherwise. -/
def classifyRow (st : BLState) (i : Nat) : Option BLClass :=
  if st.y.getD i 0 != st.minorityTarget then none
  else
    let nn := kNearest st.X st.k i
    let mj := (nn.filter (fun nIdx => st.y.getD nIdx 0 != st.minorityTarget)).length
    if mj = nn.length then some BLClass.noise
    else if (mj : ℚ) < (nn.length : ℚ) / 2 then some BLClass.safe
    else some BLClass.danger

/-- `safe_minority_indices` accumulated by the loop. -/
def safeIndices (st : BLState) : List Nat :=
  (List.range st.sampleCount).filter (fun i => classifyRow st i = some BLClass.safe)

/-- `danger_minority_indices` accumulated by the loop. -/
def dangerIndices (st : BLState) : List Nat :=
  (List.range st.sampleCount).filter (fun i => classifyRow st i = some BLClass.danger)

/-- `self.X[danger_minority_indices]`: the danger-zone rows. -/
def dangerRows (st : BLState) : List Point :=
  (dangerIndices st).map (fun i => st.X.getD i [])

/-- `self.X[safe_minority_indices]`: the safe-zone rows. -/
def safeRows (st : BLState) : List Point :=
  (safeIndices st).map (fun i => st.X.getD i [])

/-- `BorderlineSMOTE.sample`: classifies the minority rows, fits a fresh
inner `SMOTE(self.k, random_state=self.random_state)` — whose default
`return_mode` is `"only"` — on the danger rows (propagating its
insufficient-data failure), draws `n` synthetic rows, and dispatches on
`return_mode`. -/
def BorderlineSMOTE.sample (st : BLState) (nSamples : Nat) (np : NpDraws)
    (py : Nat → Nat) : Except String (SampleResult × (Nat → Nat)) :=
  match SMOTE.fit st.k "only" st.randomState (dangerRows st) 1 with
  | .error e => .error e
  | .ok sst =>
    let S := SMOTE.sampleS sst nSamples np py
    let res :=
      if st.returnMode = "with_safe_and_danger" then
        SampleResult.withSafeAndDanger S (safeRows st) (dangerRows st)
      else if st.returnMode = "append" then
        let X := st.X ++ S
        SampleResult.append X (List.replicate X.length st.minorityTarget)
      else if st.returnMode = "only" then SampleResult.only S
      else SampleResult.nothing
    .ok (res, fun t => py (t + nSamples))

/-- `sklearn.preprocessing.normalize(w, axis=0, norm='l1')` on a single
column: divide every entry by the column's l1 norm (the sum of absolute
values); a zero norm is replaced by 1 (scikit-learn leaves zero-norm
columns unchanged). -/
def l1normalize (w : List ℚ) : List ℚ :=
  let s := (w.map (fun x => |x|)).sum
  let s' := if s = 0 then 1 else s
  w.map (fun x => x / s')

/-- The error raised by the supplied-weights branch of `SMOTEBoost.fit`:
its first statement is `check_array(sample_weight, ensure_2d=False)`, and
`check_array` is a name the module never imports (from `sklearn.utils` it
imports only `check_random_state`, `check_X_y` and `shuffle`), so the
interpreter raises `NameError` there. -/
def nameErrorCheckArray : String :=
  "NameError: name check_array is not defined"

/-- The sample-weight initialization of `SMOTEBoost.fit`: uniform `1/N`
when unspecified.  The supplied-weights branch raises `NameError` at its
first statement (see `nameErrorCheckArray`), so the normalization and the
non-positive-sum check that follow it are unreachable for every supplied
vector. -/
def initSampleWeight (nRows : Nat) (sw : Option (List ℚ)) :
    Except String (List ℚ) :=
  match sw with
  | none => .ok (List.replicate nRows ((1 : ℚ) / (nRows : ℚ)))
  | some _ => .error nameErrorCheckArray

/-- Steps 2–3 of a boosting round: tag each synthetic row with label `1`
and weight `1 / |X_i|` (the pool size before the merge), append rows,
labels and weights to the pool, and l1-normalize the combined weight
vector. -/
def mergeStep (Xi : List Point) (yi : List Int) (wi : List ℚ)
    (Xsyn : List Point) : List Point × List Int × List ℚ :=
  let ysyn : List Int := List.replicate Xsyn.length 1
  let wsyn : List ℚ := List.replicate Xsyn.length ((1 : ℚ) / (Xi.length : ℚ))
  (Xi ++ Xsyn, yi ++ ysyn, l1normalize (wi ++ wsyn))

/-- Steps 1–4 of a boosting round: fit the inner `SMOTE` on the current
pool (its failure propagates), draw `n_samples` synthetic rows, merge and
re-normalize, then shuffle — `sklearn.utils.shuffle` is external, modelled
as an oracle `shuf` co-permuting the three parallel lists. -/
def roundPool
    (shuf : Nat → List Point × List Int × List ℚ → List Point × List Int × List ℚ)
    (np : Nat → NpDraws) (k nSamples iboost : Nat)
    (Xi : List Point) (yi : List Int) (wi : List ℚ) (py : Nat → Nat) :
    Except String (List Point × List Int × List ℚ) :=
  match SMOTE.fit k "only" none Xi 1 with
  | .error e => .error e
  | .ok sst => .ok (shuf iboost (mergeStep Xi yi wi (SMOTE.sampleS sst nSamples (np iboost) py)))

/-- The boosting loop of `SMOTEBoost.fit` (`for iboost in range(R)`, here
with the remaining iteration count as fuel): per round, build the pool,
delegate one round to the external trainer's `_boost` (the oracle `boost`;
`none` models `sample_weight_i is None`), record the round's estimator
weight and error, stop on zero error or a non-positive weight sum, and
otherwise re-normalize (unless this is the last round) and continue.
Returns the `estimator_weights_` and `estimator_errors_` arrays. -/
def boostLoopAux
    (boost : Nat → List Point → List Int → List ℚ → Option (List ℚ × ℚ × ℚ))
    (shuf : Nat → List Point × List Int × List ℚ → List Point × List Int × List ℚ)
    (np : Nat → NpDraws) (k nSamples R : Nat) :
    Nat → Nat → List Point → List Int → List ℚ → (Nat → Nat) →
    List ℚ → List ℚ → Except String (List ℚ × List ℚ)
  | 0, _, _, _, _, _, estW, estE => .ok (estW, estE)
  | rem + 1, iboost, Xi, yi, wi, py, estW, estE =>
    match roundPool shuf np k nSamples iboost Xi yi wi py with
    | .error e => .error e
    | .ok (X3, y3, w3) =>
      match boost iboost X3 y3 w3 with
      | none => .ok (estW, estE)
      | some (wN, a, e) =>
        let estW' := estW.set iboost a
        let estE' := estE.set iboost e
        if e = 0 then .ok (estW', estE')
        else if wN.sum ≤ 0 then .ok (estW', estE')
        else
          let wNext := if iboost < R - 1 then wN.map (fun x => x / wN.sum) else wN
          boostLoopAux boost shuf np k nSamples R rem (iboost + 1) X3 y3 wNext
            (fun t => py (t + nSamples)) estW' estE'

/-- `SMOTEBoost.fit`: validate the learning rate, initialize the sample
weights, initialize the per-round records (`estimator_weights_` to zeros,
`estimator_errors_` to ones, both sized `R = n_estimators`), and run the
boosting loop from round 0. -/
def SMOTEBoost.fit (learningRate : ℚ)
    (boost : Nat → List Point → List Int → List ℚ → Option (List ℚ × ℚ × ℚ))
    (shuf : Nat → List Point × List Int × List ℚ → List Point × List Int × List ℚ)
    (np : Nat → NpDraws) (k nSamples R : Nat)
    (X : List Point) (y : List Int) (sw : Option (List ℚ)) (py : Nat → Nat) :
    Except String (List ℚ × List ℚ) :=
  if learningRate ≤ 0 then .error "learning_rate must be greater than zero"
  else
    match initSampleWeight X.length sw with
    | .error e => .error e
    | .ok w0 =>
      boostLoopAux boost shuf np k nSamples R R 0 X y w0 py
        (List.replicate R 0) (List.replicate R 1)

/-! ### Helper lemmas -/

theorem length_insertByDist (d : Nat → ℚ) (i : Nat) (l : List Nat) :
    (insertByDist d i l).length = l.length + 1 := by
  induction l with
  | nil => rfl
  | cons j js ih =>
    simp only [insertByDist]
    split <;> simp [ih]

theorem length_sortByDist (d : Nat → ℚ) (l : List Nat) :
    (sortByDist d l).length = l.length := by
  induction l with
  | nil => rfl
  | cons i is ih => simp [sortByDist, length_insertByDist, ih]

theorem mem_insertByDist (d : Nat → ℚ) (i a : Nat) (l : List Nat) :
    a ∈ insertByDist d i l ↔ a = i ∨ a ∈ l := by
  induction l with
  | nil => simp [insertByDist]
  | cons j js ih =>
    simp only [insertByDist]
    split
    · simp [or_comm, or_assoc, or_left_comm]
    · simp [ih]
      tauto

theorem mem_sortByDist (d : Nat → ℚ) (a : Nat) (l : List Nat) :
    a ∈ sortByDist d l ↔ a ∈ l := by
  induction l with
  | nil => simp [sortByDist]
  | cons i is ih => simp [sortByDist, mem_insertByDist, ih]

theorem length_filter_ne_range (n j : Nat) (hj : j < n) :
    ((List.range n).filter (fun i => i != j)).length = n - 1 := by
  induction n with
  | zero => omega
  | succ m ih =>
    rw [List.range_succ, List.filter_append, List.length_append]
    by_cases hm : j < m
    · have hne : (m != j) = true := by simp; omega
      rw [ih hm]
      simp [hne]
      omega
    · have hjm : j = m := by omega
      subst hjm
      have : (List.range j).filter (fun i => i != j) = List.range j := by
        apply List.filter_eq_self.mpr
        intro a ha
        have : a < j := List.mem_range.mp ha
        simp
        omega
      rw [this]
      simp

theorem kNearest_length (X : List Point) (k j : Nat) (hj : j < X.length) :
    (kNearest X k j).length = min k (X.length - 1) := by
  simp [kNearest, length_sortByDist, length_filter_ne_range _ _ hj]

theorem kNearest_mem (X : List Point) (k j m : Nat) (hm : m ∈ kNearest X k j) :
    m < X.length ∧ m ≠ j := by
  have h1 : m ∈ sortByDist (fun i => sqDist (X.getD i []) (X.getD j []))
      ((List.range X.length).filter (fun i => i != j)) :=
    List.mem_of_mem_take hm
  rw [mem_sortByDist] at h1
  have h2 := List.mem_filter.mp h1
  refine ⟨List.mem_range.mp h2.1, ?_⟩
  simpa using h2.2

theorem getD_mem_of_lt {α : Type} (l : List α) (n : Nat) (d : α)
    (h : n < l.length) : l.getD n d ∈ l := by
  rw [List.getD_eq_getElem?_getD, List.getElem?_eq_getElem h]
  exact List.getElem_mem h

theorem sum_map_div (l : List ℚ) (c : ℚ) :
    (l.map (fun x => x / c)).sum = l.sum / c := by
  induction l with
  | nil => simp
  | cons a as ih => simp [ih, add_div]

theorem sum_map_abs_of_nonneg (l : List ℚ) (h : ∀ x ∈ l, 0 ≤ x) :
    (l.map (fun x => |x|)).sum = l.sum := by
  induction l with
  | nil => simp
  | cons a as ih =>
    simp only [List.map_cons, List.sum_cons]
    rw [abs_of_nonneg (h a (by simp)), ih (fun x hx => h x (by simp [hx]))]

theorem sum_replicate_q (n : Nat) (x : ℚ) :
    (List.replicate n x).sum = n * x := by
  induction n with
  | zero => simp
  | succ m ih => simp [List.replicate_succ, ih, add_mul, add_comm]

/-! ### Concrete instances used by witnesses -/

/-- A fitted `SMOTE` instance (`k = 2`, seed 0) over three 1-D rows. -/
def exSmote (mode : String) : SMOTEState :=
  { k := 2, returnMode := mode, randomState := some 0, X := [[0], [1], [2]],
    minorityTarget := 1, nMinoritySamples := 3, nFeatures := 1 }

/-- A concrete stream of NumPy draws: row index 0 and gap 1/2 every time. -/
def exNp : NpDraws := ⟨fun _ => 0, fun _ => 1 / 2⟩

/-- A concrete stdlib-`choice` stream: draw 0 first, then 1 forever. -/
def exPy : Nat → Nat := fun t => if t < 1 then 0 else 1

/-- A fitted `BorderlineSMOTE` instance (`k = 2`) over three well-separated
pairs of minority rows, each pair next to one majority row: all six minority
rows are danger. -/
def exBL (mode : String) : BLState :=
  { k := 2, returnMode := mode, randomState := none,
    X := [[0], [1], [2], [10], [11], [12], [20], [21], [22]],
    y := [1, 1, 0, 1, 1, 0, 1, 1, 0], sampleCount := 9, minorityTarget := 1 }

/-- The inner `SMOTE` state that `BorderlineSMOTE.sample` fits on the danger
rows of `exBL mode`. -/
def exInner : SMOTEState :=
  { k := 2, returnMode := "only", randomState := none,
    X := [[0], [1], [10], [11], [20], [21]], minorityTarget := 1,
    nMinoritySamples := 6, nFeatures := 1 }

/-- A fitted `BorderlineSMOTE` instance whose single minority row is noise:
the danger zone is empty. -/
def exEmptyBL : BLState :=
  { k := 1, returnMode := "only", randomState := none, X := [[0]], y := [0],
    sampleCount := 1, minorityTarget := 0 }

/-- Evaluating the inner `SMOTE.fit` of `BorderlineSMOTE.sample` on
`exBL mode`: the six danger rows fit a `k = 2` sampler successfully. -/
theorem exInner_fit (mode : String) :
    SMOTE.fit (exBL mode).k "only" (exBL mode).randomState
      (dangerRows (exBL mode)) 1 = .ok exInner := by
  norm_num [SMOTE.fit, exBL, exInner, dangerRows, dangerIndices, classifyRow,
    kNearest, sortByDist, insertByDist, sqDist, List.range_succ]

/-! ### Claim theorems -/

/-- C3: the spec claims `sample(n)` is deterministic given a fixed seed
(reseeding from the seed at the start of every call).  The code reseeds
only the NumPy generator; the neighbor pick uses the standard library's
`random.choice`, whose global generator is *not* reseeded, so two
successive `sample(1)` calls on the same fitted instance (same
seed-determined NumPy stream `exNp`, stdlib stream advanced by the first
call) can return different rows. -/
theorem smote_sample_depends_on_unseeded_choice_stream :
    SMOTE.fit 2 "only" (some 0) [[0], [1], [2]] 1 = .ok (exSmote "only") ∧
    (SMOTE.sample (exSmote "only") 1 exNp exPy).1 ≠
      (SMOTE.sample (exSmote "only") 1 exNp
        ((SMOTE.sample (exSmote "only") 1 exNp exPy).2.1)).1 := by
  constructor
  · rfl
  · have h1 : (SMOTE.sample (exSmote "only") 1 exNp exPy).1
        = SampleResult.only [[1 / 2]] := by
      norm_num [SMOTE.sample, SMOTE.sampleS, synthRow, kNearest, sortByDist,
        insertByDist, sqDist, interpolate, exSmote, exNp, exPy, List.range_succ]
      exact fun h => absurd h (by decide)
    have h2 : (SMOTE.sample (exSmote "only") 1 exNp
        ((SMOTE.sample (exSmote "only") 1 exNp exPy).2.1)).1
        = SampleResult.only [[1]] := by
      norm_num [SMOTE.sample, SMOTE.sampleS, synthRow, kNearest, sortByDist,
        insertByDist, sqDist, interpolate, exSmote, exNp, exPy, List.range_succ]
      exact fun h => absurd h (by decide)
    rw [h1, h2]
    simp

/-- C4: `SMOTE.fit` on fewer than `k+1` rows fails with the
insufficient-data error (the spec's NeighborIndex build contract), and
`BorderlineSMOTE.sample` on an empty danger zone propagates exactly that
error from the inner sampler's `fit` instead of returning successfully. -/
theorem fit_requires_k_plus_one_rows :
    (∀ (k : Nat) (rm : String) (rs : Option Nat) (X : List Point) (mt : Int),
        X.length < k + 1 → SMOTE.fit k rm rs X mt = .error insufficientDataMsg) ∧
    (∀ (bst : BLState) (nSamples : Nat) (np : NpDraws) (py : Nat → Nat),
        dangerIndices bst = [] →
        BorderlineSMOTE.sample bst nSamples np py = .error insufficientDataMsg) := by
  constructor
  · intro k rm rs X mt h
    simp [SMOTE.fit, h]
  · intro bst n np py h
    have hdr : dangerRows bst = [] := by simp [dangerRows, h]
    simp [BorderlineSMOTE.sample, hdr, SMOTE.fit]

/-- C4 witness: `fit` with `k = 3` on one row errors, and `sample` on the
noise-only instance `exEmptyBL` errors. -/
theorem fit_requires_k_plus_one_rows_witness :
    SMOTE.fit 3 "only" none [[0]] 1 = .error insufficientDataMsg ∧
    BorderlineSMOTE.sample exEmptyBL 1 exNp exPy = .error insufficientDataMsg :=
  ⟨fit_requires_k_plus_one_rows.1 3 "only" none [[0]] 1 (by decide),
   fit_requires_k_plus_one_rows.2 exEmptyBL 1 exNp exPy (by decide)⟩

/-- C5: the learning-rate check and the uniform `1/N` default hold, but the
claim's supplied-weights clause fails: the branch handling a supplied
`sample_weight` begins with `check_array`, a name the module never imports,
so *every* supplied vector — the positive-sum `[1/2, 1/2]` included —
raises `NameError` instead of being normalized (and the non-positive-sum
`ValueError` after it is unreachable). -/
theorem smoteboost_supplied_weights_hit_undefined_name :
    SMOTEBoost.fit 0 (fun _ _ _ _ => none) (fun _ p => p)
      (fun _ => ⟨fun _ => 0, fun _ => 0⟩) 0 0 0 [[0], [0]] [1, 1]
      none (fun _ => 0) = .error "learning_rate must be greater than zero" ∧
    initSampleWeight 2 none = .ok [1 / 2, 1 / 2] ∧
    initSampleWeight 2 (some [1 / 2, 1 / 2]) = .error nameErrorCheckArray ∧
    SMOTEBoost.fit 1 (fun _ _ _ _ => none) (fun _ p => p)
      (fun _ => ⟨fun _ => 0, fun _ => 0⟩) 0 0 0 [[0], [0]] [1, 1]
      (some [1 / 2, 1 / 2]) (fun _ => 0) = .error nameErrorCheckArray := by
  refine ⟨?_, ?_, rfl, ?_⟩
  · norm_num [SMOTEBoost.fit]
  · norm_num [initSampleWeight, List.replicate]
  · norm_num [SMOTEBoost.fit, initSampleWeight]

/-- C8: a `return_mode` other than the enumerated literals makes
`SMOTE.sample` return `None` (here `SampleResult.nothing`), and likewise
`BorderlineSMOTE.sample` once the inner fit has succeeded — the silent
no-op the spec calls an unsupported-mode configuration error. -/
theorem unsupported_mode_silent_none
    (st : SMOTEState) (bst : BLState) (sst : SMOTEState)
    (h1 : st.returnMode ≠ "append") (h2 : st.returnMode ≠ "only")
    (h3 : bst.returnMode ≠ "with_safe_and_danger")
    (h4 : bst.returnMode ≠ "append") (h5 : bst.returnMode ≠ "only")
    (hfit : SMOTE.fit bst.k "only" bst.randomState (dangerRows bst) 1 = .ok sst)
    (nSamples : Nat) (np : NpDraws) (py : Nat → Nat) :
    (SMOTE.sample st nSamples np py).1 = SampleResult.nothing ∧
    BorderlineSMOTE.sample bst nSamples np py =
      .ok (SampleResult.nothing, fun t => py (t + nSamples)) := by
  constructor
  · simp [SMOTE.sample, h1, h2]
  · simp [BorderlineSMOTE.sample, hfit, h3, h4, h5]

/-- C8 witness: mode `"bogus"` on `exSmote` and `exBL`. -/
theorem unsupported_mode_silent_none_witness :
    (SMOTE.sample (exSmote "bogus") 1 exNp exPy).1 = SampleResult.nothing ∧
    BorderlineSMOTE.sample (exBL "bogus") 1 exNp exPy =
      .ok (SampleResult.nothing, fun t => exPy (t + 1)) :=
  unsupported_mode_silent_none (exSmote "bogus") (exBL "bogus") exInner
    (by decide) (by decide) (by decide) (by decide) (by decide)
    (exInner_fit "bogus") 1 exNp exPy

/-- C9: in `"append"` mode `BorderlineSMOTE.sample` returns a label vector
that is `minority_target` at *every* position — original rows included —
so the fitted dataset's per-row labels are discarded. -/
theorem borderline_append_discards_labels
    (bst : BLState) (sst : SMOTEState)
    (hm : bst.returnMode = "append")
    (hfit : SMOTE.fit bst.k "only" bst.randomState (dangerRows bst) 1 = .ok sst)
    (nSamples : Nat) (np : NpDraws) (py : Nat → Nat) :
    BorderlineSMOTE.sample bst nSamples np py =
      .ok (SampleResult.append (bst.X ++ SMOTE.sampleS sst nSamples np py)
             (List.replicate (bst.X ++ SMOTE.sampleS sst nSamples np py).length
               bst.minorityTarget),
           fun t => py (t + nSamples)) ∧
    ∀ lab ∈ List.replicate (bst.X ++ SMOTE.sampleS sst nSamples np py).length
        bst.minorityTarget, lab = bst.minorityTarget := by
  constructor
  · simp [BorderlineSMOTE.sample, hfit, hm]
  · intro lab hl
    exact List.eq_of_mem_replicate hl

/-- C9 witness: `exBL "append"` with one synthetic row. -/
theorem borderline_append_discards_labels_witness :
    BorderlineSMOTE.sample (exBL "append") 1 exNp exPy =
      .ok (SampleResult.append ((exBL "append").X ++ SMOTE.sampleS exInner 1 exNp exPy)
             (List.replicate ((exBL "append").X ++ SMOTE.sampleS exInner 1 exNp exPy).length
               (exBL "append").minorityTarget),
           fun t => exPy (t + 1)) ∧
    ∀ lab ∈ List.replicate ((exBL "append").X ++ SMOTE.sampleS exInner 1 exNp exPy).length
        (exBL "append").minorityTarget, lab = (exBL "append").minorityTarget :=
  borderline_append_discards_labels (exBL "append") exInner (by decide)
    (exInner_fit "append") 1 exNp exPy

/-- C10: in `"append"` mode the first `|X|` rows of the returned matrix are
the fitted point set unchanged and in order, the synthetic rows follow, and
`sample` leaves the fitted state untouched (the state component of the
embedded method is the input state, as the method writes no attribute). -/
theorem smote_append_preserves_originals
    (st : SMOTEState) (nSamples : Nat) (np : NpDraws) (py : Nat → Nat) :
    (SMOTE.sample st nSamples np py).2.2 = st ∧
    (st.returnMode = "append" →
      (SMOTE.sample st nSamples np py).1 =
        SampleResult.append (st.X ++ SMOTE.sampleS st nSamples np py)
          (List.replicate (st.X ++ SMOTE.sampleS st nSamples np py).length
            st.minorityTarget) ∧
      (st.X ++ SMOTE.sampleS st nSamples np py).take st.X.length = st.X ∧
      (st.X ++ SMOTE.sampleS st nSamples np py).drop st.X.length =
        SMOTE.sampleS st nSamples np py) := by
  refine ⟨rfl, fun hm => ⟨?_, List.take_left _ _, List.drop_left _ _⟩⟩
  simp [SMOTE.sample, hm]

/-- C10 witness: `exSmote "append"` with one synthetic row. -/
theorem smote_append_preserves_originals_witness :
    (SMOTE.sample (exSmote "append") 1 exNp exPy).1 =
      SampleResult.append ((exSmote "append").X ++ SMOTE.sampleS (exSmote "append") 1 exNp exPy)
        (List.replicate ((exSmote "append").X ++ SMOTE.sampleS (exSmote "append") 1 exNp exPy).length
          (exSmote "append").minorityTarget) ∧
    ((exSmote "append").X ++ SMOTE.sampleS (exSmote "append") 1 exNp exPy).take
        (exSmote "append").X.length = (exSmote "append").X ∧
    ((exSmote "append").X ++ SMOTE.sampleS (exSmote "append") 1 exNp exPy).drop
        (exSmote "append").X.length = SMOTE.sampleS (exSmote "append") 1 exNp exPy :=
  (smote_append_preserves_originals (exSmote "append") 1 exNp exPy).2 rfl

/-- C7: in a boosting round, every synthetic row is tagged with label `1`
and weight `1 / |X_i|` (the pool size before the merge), and after the
append and the l1 re-normalization of step 3 the pooled weight vector sums
to exactly 1 (the arithmetic here is exact, so no tolerance is needed). -/
theorem smoteboost_merge_weight_invariant
    (Xi : List Point) (yi : List Int) (wi : List ℚ) (Xsyn : List Point)
    (hw : ∀ x ∈ wi, 0 ≤ x) (hXi : 0 < Xi.length) (hsyn : 0 < Xsyn.length) :
    (mergeStep Xi yi wi Xsyn).2.1 = yi ++ List.replicate Xsyn.length 1 ∧
    (mergeStep Xi yi wi Xsyn).2.2 =
      l1normalize (wi ++ List.replicate Xsyn.length ((1 : ℚ) / (Xi.length : ℚ))) ∧
    ((mergeStep Xi yi wi Xsyn).2.2).sum = 1 := by
  refine ⟨rfl, rfl, ?_⟩
  have hmerge : (mergeStep Xi yi wi Xsyn).2.2 =
      l1normalize (wi ++ List.replicate Xsyn.length ((1 : ℚ) / (Xi.length : ℚ))) := rfl
  rw [hmerge]
  set w := wi ++ List.replicate Xsyn.length ((1 : ℚ) / (Xi.length : ℚ)) with hwdef
  have hnn : ∀ x ∈ w, 0 ≤ x := by
    intro x hx
    rcases List.mem_append.mp hx with h | h
    · exact hw x h
    · rw [List.eq_of_mem_replicate h]
      positivity
  have habs : (w.map (fun x => |x|)).sum = w.sum := sum_map_abs_of_nonneg w hnn
  have hsum : w.sum = wi.sum + (Xsyn.length : ℚ) * ((1 : ℚ) / (Xi.length : ℚ)) := by
    rw [hwdef, List.sum_append, sum_replicate_q]
  have hpos : 0 < w.sum := by
    rw [hsum]
    have h1 : 0 ≤ wi.sum := List.sum_nonneg hw
    have h2 : 0 < (Xsyn.length : ℚ) * ((1 : ℚ) / (Xi.length : ℚ)) := by
      apply mul_pos
      · exact_mod_cast hsyn
      · apply div_pos one_pos
        exact_mod_cast hXi
    linarith
  show (l1normalize w).sum = 1
  rw [l1normalize]
  simp only [habs, if_neg (ne_of_gt hpos)]
  rw [sum_map_div]
  exact div_self (ne_of_gt hpos)

/-- C7 witness: one original row with weight 1, one synthetic row. -/
theorem smoteboost_merge_weight_invariant_witness :
    (mergeStep [[0]] [0] [1] [[2]]).2.1 = [0] ++ List.replicate 1 1 ∧
    (mergeStep [[0]] [0] [1] [[2]]).2.2 =
      l1normalize ([1] ++ List.replicate 1 ((1 : ℚ) / (([[0]] : List Point).length : ℚ))) ∧
    ((mergeStep [[0]] [0] [1] [[2]]).2.2).sum = 1 :=
  smoteboost_merge_weight_invariant [[0]] [0] [1] [[2]]
    (by intro x hx; simp at hx; simp [hx]) (by decide) (by decide)

/-- C1: on a fitted sampler in `"only"` mode, `sample(n)` returns exactly
`n` rows of the fitted dimensionality, and every output row equals
`points[j] + gap * (points[m] - points[j])` for some fitted row `j`, some
`m` among the `k` nearest neighbors of row `j` excluding `j` itself, and
some `gap` in `[0, 1)`. -/
theorem smote_sample_only_interpolation
    (k : Nat) (rs : Option Nat) (X : List Point) (mt : Int) (st : SMOTEState)
    (hfit : SMOTE.fit k "only" rs X mt = .ok st)
    (hk : 0 < k)
    (hrect : ∀ p ∈ X, p.length = (X.headD []).length)
    (np : NpDraws) (py : Nat → Nat)
    (hgap : ∀ i, 0 ≤ np.random i ∧ np.random i < 1)
    (nSamples : Nat) :
    (SMOTE.sample st nSamples np py).1 =
      SampleResult.only (SMOTE.sampleS st nSamples np py) ∧
    (SMOTE.sampleS st nSamples np py).length = nSamples ∧
    ∀ row ∈ SMOTE.sampleS st nSamples np py,
      row.length = st.nFeatures ∧
      ∃ j, j < st.X.length ∧ ∃ m ∈ kNearest st.X st.k j, ∃ gap : ℚ,
        0 ≤ gap ∧ gap < 1 ∧
        row = interpolate (st.X.getD j []) (st.X.getD m []) gap := by
  rw [SMOTE.fit] at hfit
  split at hfit
  · exact absurd hfit (by simp)
  · rename_i hlen
    rw [Except.ok.injEq] at hfit
    subst hfit
    refine ⟨by simp [SMOTE.sample], by simp [SMOTE.sampleS], ?_⟩
    intro row hrow
    obtain ⟨i, hi, rfl⟩ := List.mem_map.mp hrow
    have hXpos : 0 < X.length := by omega
    have hj : np.randint i % X.length < X.length := Nat.mod_lt _ hXpos
    have hnnlen : (kNearest X k (np.randint i % X.length)).length = k := by
      rw [kNearest_length X k _ hj]
      omega
    have hnnpos : 0 < (kNearest X k (np.randint i % X.length)).length := by omega
    have hidx : py i % (kNearest X k (np.randint i % X.length)).length
        < (kNearest X k (np.randint i % X.length)).length := Nat.mod_lt _ hnnpos
    have hm : (kNearest X k (np.randint i % X.length)).getD
        (py i % (kNearest X k (np.randint i % X.length)).length) 0
        ∈ kNearest X k (np.randint i % X.length) := getD_mem_of_lt _ _ _ hidx
    obtain ⟨hmX, _⟩ := kNearest_mem X k _ _ hm
    constructor
    · show (synthRow _ np py i).length = _
      rw [synthRow, interpolate]
      simp only [List.length_zipWith]
      have e1 : (X.getD (np.randint i % X.length) []).length = (X.headD []).length :=
        hrect _ (getD_mem_of_lt X _ [] hj)
      have e2 : (X.getD ((kNearest X k (np.randint i % X.length)).getD
          (py i % (kNearest X k (np.randint i % X.length)).length) 0) []).length
          = (X.headD []).length :=
        hrect _ (getD_mem_of_lt X _ [] hmX)
      rw [e1, e2, min_self]
    · exact ⟨np.randint i % X.length, hj,
        (kNearest X k (np.randint i % X.length)).getD
          (py i % (kNearest X k (np.randint i % X.length)).length) 0, hm,
        np.random i, (hgap i).1, (hgap i).2, rfl⟩

/-- C1 witness: the `k = 2` sampler fitted on three 1-D rows, two draws. -/
theorem smote_sample_only_interpolation_witness :
    (SMOTE.sample (exSmote "only") 2 exNp exPy).1 =
      SampleResult.only (SMOTE.sampleS (exSmote "only") 2 exNp exPy) ∧
    (SMOTE.sampleS (exSmote "only") 2 exNp exPy).length = 2 ∧
    ∀ row ∈ SMOTE.sampleS (exSmote "only") 2 exNp exPy,
      row.length = (exSmote "only").nFeatures ∧
      ∃ j, j < (exSmote "only").X.length ∧
        ∃ m ∈ kNearest (exSmote "only").X (exSmote "only").k j, ∃ gap : ℚ,
          0 ≤ gap ∧ gap < 1 ∧
          row = interpolate ((exSmote "only").X.getD j [])
            ((exSmote "only").X.getD m []) gap :=
  smote_sample_only_interpolation 2 (some 0) [[0], [1], [2]] 1 (exSmote "only")
    (by rfl) (by decide) (by decide) exNp exPy
    (fun i => ⟨by norm_num [exNp], by norm_num [exNp]⟩) 2

/-- C2: on a fitted `BorderlineSMOTE` instance, every row labeled with the
derived minority target is classified into exactly one of noise, safe,
danger — noise iff `majority_neighbors = k`, safe iff it is not `k` and is
strictly below `k/2` (rational division), danger otherwise — and rows not
labeled with the minority target are never classified. -/
theorem borderline_classification_trichotomy
    (k : Nat) (rm : String) (rs : Option Nat) (X : List Point) (y : List Int)
    (st : BLState)
    (hfit : BorderlineSMOTE.fit k rm rs X y = .ok st)
    (i : Nat) (hi : i < st.sampleCount) :
    (st.y.getD i 0 ≠ st.minorityTarget → classifyRow st i = none) ∧
    (st.y.getD i 0 = st.minorityTarget →
      (∃ c, classifyRow st i = some c) ∧
      (classifyRow st i = some BLClass.noise ↔ majorityNeighbors st i = st.k) ∧
      (classifyRow st i = some BLClass.safe ↔
        majorityNeighbors st i ≠ st.k ∧
          (majorityNeighbors st i : ℚ) < (st.k : ℚ) / 2) ∧
      (classifyRow st i = some BLClass.danger ↔
        majorityNeighbors st i ≠ st.k ∧
          ¬ (majorityNeighbors st i : ℚ) < (st.k : ℚ) / 2)) := by
  rw [BorderlineSMOTE.fit] at hfit
  split at hfit
  · exact absurd hfit (by simp)
  · rename_i hlen
    rw [Except.ok.injEq] at hfit
    subst hfit
    simp only at hi ⊢
    have hnn : (kNearest X k i).length = k := by
      rw [kNearest_length X k i hi]
      omega
    constructor
    · intro hne
      rw [classifyRow, if_pos (by simpa using hne)]
    · intro heq
      have hcl : classifyRow
          { k := k, returnMode := rm, randomState := rs, X := X, y := y,
            sampleCount := X.length, minorityTarget := counterMin y } i =
          (if majorityNeighbors
              { k := k, returnMode := rm, randomState := rs, X := X, y := y,
                sampleCount := X.length, minorityTarget := counterMin y } i = k
           then some BLClass.noise
           else if (majorityNeighbors
              { k := k, returnMode := rm, randomState := rs, X := X, y := y,
                sampleCount := X.length, minorityTarget := counterMin y } i : ℚ)
                < (k : ℚ) / 2
           then some BLClass.safe
           else some BLClass.danger) := by
        rw [classifyRow, if_neg (by simpa using heq)]
        simp only [majorityNeighbors, hnn]
      rw [hcl]
      split
      · rename_i h1
        exact ⟨⟨BLClass.noise, rfl⟩, by simp [h1], by simp [h1], by simp [h1]⟩
      · rename_i h1
        split
        · rename_i h2
          exact ⟨⟨BLClass.safe, rfl⟩, by simp [h1], by simp [h1, h2],
            by simp [h1, h2]⟩
        · rename_i h2
          exact ⟨⟨BLClass.danger, rfl⟩, by simp [h1], by simp [h1, h2],
            by simp [h1, h2]⟩

/-- The result of `BorderlineSMOTE.fit 2 "only" none [[0],[1],[2]] [0,0,1]`:
the derived minority target is the least-frequent label `1`. -/
def exFitBL : BLState :=
  { k := 2, returnMode := "only", randomState := none, X := [[0], [1], [2]],
    y := [0, 0, 1], sampleCount := 3, minorityTarget := 1 }

/-- C2 witness: row 2 of `exFitBL` carries the minority label and both of
its neighbors are majority, so it is classified (as noise). -/
theorem borderline_classification_trichotomy_witness :
    (exFitBL.y.getD 2 0 ≠ exFitBL.minorityTarget → classifyRow exFitBL 2 = none) ∧
    (exFitBL.y.getD 2 0 = exFitBL.minorityTarget →
      (∃ c, classifyRow exFitBL 2 = some c) ∧
      (classifyRow exFitBL 2 = some BLClass.noise ↔
        majorityNeighbors exFitBL 2 = exFitBL.k) ∧
      (classifyRow exFitBL 2 = some BLClass.safe ↔
        majorityNeighbors exFitBL 2 ≠ exFitBL.k ∧
          (majorityNeighbors exFitBL 2 : ℚ) < (exFitBL.k : ℚ) / 2) ∧
      (classifyRow exFitBL 2 = some BLClass.danger ↔
        majorityNeighbors exFitBL 2 ≠ exFitBL.k ∧
          ¬ (majorityNeighbors exFitBL 2 : ℚ) < (exFitBL.k : ℚ) / 2)) :=
  borderline_classification_trichotomy 2 "only" none [[0], [1], [2]] [0, 0, 1]
    exFitBL (by rfl) 2 (by decide)

theorem getD_set_ne {α : Type} (l : List α) (i t : Nat) (a d : α)
    (h : t ≠ i) : (l.set i a).getD t d = l.getD t d := by
  rw [List.getD_eq_getElem?_getD, List.getD_eq_getElem?_getD,
    List.getElem?_set_ne (Ne.symm h)]

/-- C6: one boosting round of `SMOTEBoost.fit` records exactly one
(estimator weight, estimator error) pair: if the trainer returns no weight
vector the loop stops with nothing recorded for the round; if the round's
error is exactly zero the pair is recorded and the loop stops; otherwise
the pair is recorded and the loop proceeds to the next round; and a
recording at round `iboost` leaves every other round's entry — in
particular the initial placeholders (weight 0, error 1) of the rounds that
never execute — unchanged. -/
theorem smoteboost_round_recording
    (boost : Nat → List Point → List Int → List ℚ → Option (List ℚ × ℚ × ℚ))
    (shuf : Nat → List Point × List Int × List ℚ → List Point × List Int × List ℚ)
    (np : Nat → NpDraws) (k nSamples R rem iboost : Nat)
    (Xi X3 : List Point) (yi y3 : List Int) (wi w3 : List ℚ)
    (py : Nat → Nat) (estW estE : List ℚ)
    (hpool : roundPool shuf np k nSamples iboost Xi yi wi py = .ok (X3, y3, w3)) :
    (boost iboost X3 y3 w3 = none →
      boostLoopAux boost shuf np k nSamples R (rem + 1) iboost Xi yi wi py estW estE
        = .ok (estW, estE)) ∧
    (∀ wN a, boost iboost X3 y3 w3 = some (wN, a, 0) →
      boostLoopAux boost shuf np k nSamples R (rem + 1) iboost Xi yi wi py estW estE
        = .ok (estW.set iboost a, estE.set iboost 0)) ∧
    (∀ wN a e, boost iboost X3 y3 w3 = some (wN, a, e) → e ≠ 0 → 0 < wN.sum →
      boostLoopAux boost shuf np k nSamples R (rem + 1) iboost Xi yi wi py estW estE
        = boostLoopAux boost shuf np k nSamples R rem (iboost + 1) X3 y3
            (if iboost < R - 1 then wN.map (fun x => x / wN.sum) else wN)
            (fun t => py (t + nSamples)) (estW.set iboost a) (estE.set iboost e)) ∧
    (∀ (a e : ℚ) (t : Nat) (d : ℚ), t ≠ iboost →
      (estW.set iboost a).getD t d = estW.getD t d ∧
      (estE.set iboost e).getD t d = estE.getD t d) := by
  refine ⟨?_, ?_, ?_, ?_⟩
  · intro h
    simp only [boostLoopAux, hpool, h]
  · intro wN a h
    simp only [boostLoopAux, hpool, h]
    simp
  · intro wN a e h he hpos
    simp only [boostLoopAux, hpool, h]
    rw [if_neg he, if_neg (not_le.mpr hpos)]
  · intro a e t d ht
    exact ⟨getD_set_ne _ _ _ _ _ ht, getD_set_ne _ _ _ _ _ ht⟩

/-- C6 witness: a first round whose trainer signals early termination
(`None`): the loop stops and the placeholder arrays are returned as-is. -/
theorem smoteboost_round_recording_witness :
    boostLoopAux (fun _ _ _ _ => none) (fun _ p => p)
      (fun _ => ⟨fun _ => 0, fun _ => 0⟩) 0 0 1 1 0 [[0]] [1] [1]
      (fun _ => 0) [0] [1] = .ok ([0], [1]) :=
  (smoteboost_round_recording (fun _ _ _ _ => none) (fun _ p => p)
    (fun _ => ⟨fun _ => 0, fun _ => 0⟩) 0 0 1 0 0 [[0]] [[0]] [1] [1] [1] [1]
    (fun _ => 0) [0] [1]
    (by norm_num [roundPool, SMOTE.fit, SMOTE.sampleS, mergeStep, l1normalize])).1 rfl

end ImbAlg
